import Mathlib

/-!
Verification of the one-sided active-message queue implemented in
`dart-impl/mpi/src/dart_amsgq/dart_active_messages_sopnop.c`.

The development contains two embeddings of the same C file, at two
granularities:

* a *sequential, per-call* model of `dart_amsg_sopnop_sendbuf`,
  `dart_amsg_sopnop_trysend` and `dart_amsg_sopnop_closeq`, which records the
  exact sequence of MPI RMA operations (fetch-and-op, accumulate, put,
  flushes) one call issues, together with their effect on the remote window;

* a *fine-grained interleaved* transition system in which every MPI atomic
  issued by a sender (`dart_amsg_sopnop_sendbuf`) or by the drainer
  (`amsg_sopnop_process_internal`) is one atomic step on the shared window
  state, so that races between concurrent senders and the drainer are
  expressible.

Byte-level message encoding follows `struct dart_amsg_header`
(fn pointer: 8 bytes, remote unit id: 4 bytes, data_size: 4 bytes,
little-endian, no DART_DEBUG msgid field), followed by `data_size` payload
bytes, exactly as composed by `dart_amsg_sopnop_trysend` and parsed by the
dispatch loop of `amsg_sopnop_process_internal`.
-/

/-- Return codes of `dart_ret_t` used by the queue implementation. -/
inductive DartRet where
  | ok
  | again
  | inval
  | other
  deriving DecidableEq, Repr

/-- `INT32_MAX`, the freeze bias used by `amsg_sopnop_process_internal`. -/
def BIG : Int := 2147483647

/-- `sizeof(struct dart_amsg_header)`: fn (8) + remote (4) + data_size (4). -/
def headerSize : Nat := 16

/-- `MSGCACHE_SIZE` from the source (4*1024). -/
def MSGCACHE_SIZE : Nat := 4096

/-- Little-endian byte encoding of a natural number on `w` bytes. -/
def leBytes : Nat → Nat → List Nat
  | 0, _ => []
  | w + 1, n => (n % 256) :: leBytes w (n / 256)

/-- Value of a little-endian byte list. -/
def leVal : List Nat → Nat
  | [] => 0
  | b :: bs => b + 256 * leVal bs

/-- Read `w` consecutive bytes starting at `base` from a byte store. -/
def readBytes (f : Nat → Nat) (base : Nat) : Nat → List Nat
  | 0 => []
  | k + 1 => f base :: readBytes f (base + 1) k

/-- Little-endian value of `w` bytes at `base` in a byte store. -/
def leRead (f : Nat → Nat) (base w : Nat) : Nat :=
  leVal (readBytes f base w)

/-- An active message: handler identifier (the `fn` pointer bits), the
originating unit id, and the payload bytes. -/
structure Msg where
  fn : Nat
  remote : Nat
  payload : List Nat
  deriving DecidableEq, Repr

instance : Inhabited Msg := ⟨⟨0, 0, []⟩⟩

/-- Wire format of one message: packed `dart_amsg_header` followed by the
payload, as assembled by `dart_amsg_sopnop_trysend`. -/
def encodeMsg (m : Msg) : List Nat :=
  leBytes 8 m.fn ++ leBytes 4 m.remote ++ leBytes 4 m.payload.length ++ m.payload

/-- Total size `sizeof(struct dart_amsg_header) + data_size` of a message. -/
def msgSize (m : Msg) : Nat := headerSize + m.payload.length

/-! ## Sequential per-call model of the sender path

State of one target's receive window, following the layout macros
`OFFSET_QUEUENUM`, `OFFSET_TAILPOS(q)`, `OFFSET_READYPOS(q)`,
`OFFSET_DATA(q, qs)` of the source. `wbuf` holds the raw bytes of the
window's two data regions, addressed by absolute window offset. -/
structure WState where
  sel : Int
  tail0 : Int
  tail1 : Int
  ready0 : Int
  ready1 : Int
  wbuf : Int → Nat

/-- The all-zero window produced by `dart_amsg_sopnop_openq` (the window is
`memset` to 0 before the opening barrier). -/
def wZero : WState :=
  { sel := 0, tail0 := 0, tail1 := 0, ready0 := 0, ready1 := 0, wbuf := fun _ => 0 }

/-- Tail counter of sub-queue `q` (`false` = queue 0, `true` = queue 1). -/
def wTail (s : WState) (q : Bool) : Int := if q then s.tail1 else s.tail0

/-- Ready counter of sub-queue `q`. -/
def wReady (s : WState) (q : Bool) : Int := if q then s.ready1 else s.ready0

def setWTail (s : WState) (q : Bool) (v : Int) : WState :=
  if q then { s with tail1 := v } else { s with tail0 := v }

def setWReady (s : WState) (q : Bool) (v : Int) : WState :=
  if q then { s with ready1 := v } else { s with ready0 := v }

/-- `OFFSET_TAILPOS(q) = sizeof(int64_t) + q*2*sizeof(int64_t)`. -/
def OFFSET_TAILPOS (q : Bool) : Int := 8 + (if q then 16 else 0)

/-- `OFFSET_READYPOS(q) = OFFSET_TAILPOS(q) + sizeof(int64_t)`. -/
def OFFSET_READYPOS (q : Bool) : Int := OFFSET_TAILPOS q + 8

/-- `OFFSET_DATA(q, qs) = OFFSET_READYPOS(1) + sizeof(int64_t) + q*qs`. -/
def OFFSET_DATA (q : Bool) (qs : Int) : Int := 40 + (if q then qs else 0)

/-- Overlay a list of bytes on the window at absolute offset `base`. -/
def writeW (f : Int → Nat) (base : Int) (bs : List Nat) : Int → Nat :=
  fun i => if base ≤ i ∧ i < base + bs.length then bs.getD (i - base).toNat 0 else f i

/-- One RMA operation issued by `dart_amsg_sopnop_sendbuf`, in the order the
source issues them. -/
inductive Op where
  | fetchQueuenum
  | fetchAddTail (q : Bool) (v : Int)
  | accTail (q : Bool) (v : Int)
  | putBytes (absOff : Int) (bytes : List Nat)
  | accReady (q : Bool) (v : Int)
  | flushLocal
  | flushRemote
  deriving DecidableEq, Repr

/-- Result of one `dart_amsg_sopnop_sendbuf` call: the return code, the exact
sequence of RMA operations issued, the final window state, and whether the
`DART_ASSERT(queuenum == 0 || queuenum == 1)` held. -/
structure SBRes where
  res : DartRet
  ops : List Op
  fin : WState
  selAssertOk : Bool

/-- Sequential model of `dart_amsg_sopnop_sendbuf` (lines 131-223): fetch the
queue number, fetch-and-add the tail by `msg_size`, and either (offset in
range) put the payload, remote-flush, bump the ready counter and remote-flush
again, or (offset out of range) accumulate the negated size back onto the
tail, remote-flush, and return `DART_ERR_AGAIN`.  The `do ... while(1)` in the
source never iterates: every branch breaks or returns. -/
def dart_amsg_sopnop_sendbuf (Q : Int) (s : WState) (buf : List Nat) : SBRes :=
  let n : Int := buf.length
  let aOk := s.sel == 0 || s.sel == 1
  let q := s.sel == 1
  let offset := wTail s q
  let s1 := setWTail s q (offset + n)
  if 0 ≤ offset ∧ offset + n ≤ Q then
    let s2 := { s1 with wbuf := writeW s1.wbuf (OFFSET_DATA q Q + offset) buf }
    let s3 := setWReady s2 q (wReady s2 q + n)
    { res := .ok
      ops := [.fetchQueuenum, .flushLocal, .fetchAddTail q n, .flushLocal,
              .putBytes (OFFSET_DATA q Q + offset) buf, .flushRemote,
              .accReady q n, .flushRemote]
      fin := s3
      selAssertOk := aOk }
  else
    { res := .again
      ops := [.fetchQueuenum, .flushLocal, .fetchAddTail q n, .flushLocal,
              .accTail q (-n), .flushRemote]
      fin := setWTail s1 q ((offset + n) + (-n))
      selAssertOk := aOk }

/-- `queue_size = msg_count * (sizeof(struct dart_amsg_header) + msg_size)`
as computed by `dart_amsg_sopnop_openq`. -/
def openqQueueSize (msg_size msg_count : Nat) : Nat :=
  msg_count * (headerSize + msg_size)

/-- Sequential model of `dart_amsg_sopnop_trysend` (lines 227-256): assemble
header + payload on the stack and delegate to `dart_amsg_sopnop_sendbuf`.
The source performs no size check of any kind on `data_size` (no
`DART_ASSERT`, no `DART_ERR_INVAL` path). -/
def dart_amsg_sopnop_trysend (Q : Int) (s : WState) (fn remote : Nat)
    (payload : List Nat) : SBRes :=
  dart_amsg_sopnop_sendbuf Q s (encodeMsg ⟨fn, remote, payload⟩)

/-- Result of `dart_amsg_sopnop_closeq`: whether the late-message warning was
emitted, the list of handler invocations it performed, and the return code. -/
structure CloseRes where
  warn : Bool
  invoked : List (Nat × List Nat)
  res : DartRet
  deriving DecidableEq, Repr

/-- Sequential model of `dart_amsg_sopnop_closeq` (lines 573-610): read the
local queue number, fetch the tail counter of that sub-queue **as a 32-bit
value into a `uint32_t`** (the source declares `uint32_t tailpos` and fetches
with `MPI_INT32_T`, so only the low 4 bytes of the 8-byte little-endian
counter are read), warn if that unsigned 32-bit value is positive, invoke no
handler, and return `DART_OK`. -/
def dart_amsg_sopnop_closeq (s : WState) : CloseRes :=
  let q := s.sel == 1
  let tailpos32 : Int := wTail s q % (2 ^ 32)
  { warn := tailpos32 > 0, invoked := [], res := .ok }

/-! ## Byte-level dispatch walk of `amsg_sopnop_process_internal`

`parseLoop` is the loop at lines 417-443: while `pos < tailpos`, read the
packed header at `pos` (fn: 8 bytes, remote: 4 bytes, data_size: 4 bytes),
advance past the header, take `data_size` payload bytes, record whether the
`DART_ASSERT_MSG(pos <= tailpos, ...)` held, and invoke the handler.  The
fuel argument only bounds the number of iterations; each iteration advances
`pos` by at least the header size, so `tailpos.toNat` fuel is always enough. -/
structure PRec where
  start : Nat
  fn : Nat
  remote : Nat
  payload : List Nat
  deriving DecidableEq, Repr

def parseLoop (f : Nat → Nat) (tp : Int) : Nat → Nat → List PRec × Bool
  | _, 0 => ([], true)
  | pos, fuel + 1 =>
    if (pos : Int) < tp then
      let fn := leRead f pos 8
      let rem := leRead f (pos + 8) 4
      let dsz := leRead f (pos + 12) 4
      let payload := readBytes f (pos + 16) dsz
      let pos2 := pos + 16 + dsz
      let rest := parseLoop f tp pos2 fuel
      (⟨pos, fn, rem, payload⟩ :: rest.1, (decide ((pos2 : Int) ≤ tp)) && rest.2)
    else ([], true)

/-- Spec-side description of a dispatched batch (refinement counterpart of
`parseLoop`, following the spec's words: "walk bytes `data[q][0..tail_now]`
in order: parse header (fixed size), then payload of `header.data_size`").
Each message of the batch yields exactly one record, at the cumulative
offset of its reservation. -/
def dispatchSpec (base : Nat) : List Msg → List PRec
  | [] => []
  | m :: rest => ⟨base, m.fn, m.remote, m.payload⟩ :: dispatchSpec (base + msgSize m) rest

/-- Concatenated wire bytes of a batch of messages. -/
def batchBytes (L : List Msg) : List Nat := (L.map encodeMsg).flatten

/-- Field bounds of `struct dart_amsg_header`: the fn pointer is 8 bytes, the
unit id 4 bytes, `data_size` a `uint32_t`. -/
def msgWf (m : Msg) : Prop :=
  m.fn < 2 ^ 64 ∧ m.remote < 2 ^ 32 ∧ m.payload.length < 2 ^ 32

/-! ## Fine-grained interleaved model

Every MPI atomic issued by a sender running `dart_amsg_sopnop_sendbuf` or by
the drainer running `amsg_sopnop_process_internal` is one atomic step on the
shared window state.  A payload `MPI_Put` together with the `MPI_Win_flush`
that completes it is one step (its bytes are never read before the matching
ready bump, which is a later separate step).  The drainer's dispatch walk is
one step: it runs while the queue is frozen.  Ghost fields `accepted` (one
entry per reservation that returned an in-range offset, i.e. per successful
`sendbuf`) and `dispatched` (one entry per handler invocation) record the
observable events; `assertFailed` records whether any `DART_ASSERT` of the
source was violated. -/
inductive SPhase where
  | idle
  | gotSel (qv : Int)
  | writing (q : Bool) (off : Int)
  | bumping (q : Bool) (off : Int)
  | rollingBack (q : Bool)
  | doneOk
  | doneAgain
  deriving DecidableEq, Repr

inductive DPhase where
  | rest
  | start (b : Bool)
  | readTail (b : Bool) (q : Bool)
  | checkTail (b : Bool) (q : Bool) (t : Int)
  | quiesce (b : Bool) (q : Bool) (t : Int)
  | resetTail (b : Bool) (q : Bool) (t : Int)
  | swapSel (b : Bool) (q : Bool) (t : Int)
  | freeze (b : Bool) (q : Bool) (t : Int)
  | waitReady (b : Bool) (q : Bool) (sub : Int)
  | waitTail (b : Bool) (q : Bool) (sub : Int) (r : Int)
  | recordTail (b : Bool) (q : Bool) (sub : Int) (tp : Int)
  | resetReady (b : Bool) (q : Bool) (tp : Int)
  | dispatch (b : Bool) (q : Bool) (tp : Int)
  | loopEnd (b : Bool) (tp : Int)
  deriving DecidableEq, Repr

structure Sys where
  sel : Int
  tail0 : Int
  tail1 : Int
  ready0 : Int
  ready1 : Int
  buf0 : Nat → Nat
  buf1 : Nat → Nat
  prevTailpos : Int
  senders : List SPhase
  dr : DPhase
  accepted : List Msg
  dispatched : List (Nat × List Nat)
  assertFailed : Bool

def sTail (s : Sys) (q : Bool) : Int := if q then s.tail1 else s.tail0

def sReady (s : Sys) (q : Bool) : Int := if q then s.ready1 else s.ready0

def sBuf (s : Sys) (q : Bool) : Nat → Nat := if q then s.buf1 else s.buf0

def setSTail (s : Sys) (q : Bool) (v : Int) : Sys :=
  if q then { s with tail1 := v } else { s with tail0 := v }

def setSReady (s : Sys) (q : Bool) (v : Int) : Sys :=
  if q then { s with ready1 := v } else { s with ready0 := v }

def setSBuf (s : Sys) (q : Bool) (f : Nat → Nat) : Sys :=
  if q then { s with buf1 := f } else { s with buf0 := f }

/-- Overlay a list of bytes on a data region at offset `base`. -/
def writeBuf (f : Nat → Nat) (base : Nat) (bs : List Nat) : Nat → Nat :=
  fun i => if base ≤ i ∧ i < base + bs.length then bs.getD (i - base) 0 else f i

/-- One atomic action: a sender step of `dart_amsg_sopnop_sendbuf` (indexed
by the sender) or a drainer step of `amsg_sopnop_process_internal`. -/
inductive Act where
  | sReadSel (i : Nat)
  | sReserve (i : Nat)
  | sPut (i : Nat)
  | sBump (i : Nat)
  | sRollback (i : Nat)
  | dCall (b : Bool)
  | dReadSel
  | dReadTail
  | dCheckTail
  | dQuiesce
  | dResetTail
  | dSwapSel
  | dFreeze
  | dWaitReady
  | dWaitTail
  | dRecord
  | dResetReady
  | dDispatch
  | dLoopEnd
  deriving DecidableEq, Repr

/-- System parameters: the queue capacity `Q = queue_size` and the message
each sender is trying to send. -/
structure Cfg where
  Q : Int
  msgs : List Msg

/-- The interleaved step function.  Sender steps follow
`dart_amsg_sopnop_sendbuf` lines 147-215 (selector fetch; tail fetch-and-add
with in-range test; payload put + flush; ready accumulate; or rollback
accumulate).  Drainer steps follow `amsg_sopnop_process_internal` lines
266-447 (mutex acquire; local selector read with assert; tail fetch; zero
test; quiesce poll of the other tail against `prev_tailpos`; tail replace;
selector swap with assert; freeze fetch-and-add of `-tailpos - INT32_MAX`;
the ready/tail wait loop with its `DART_ASSERT(readypos <= tailpos)`;
`prev_tailpos` update; ready replace; the dispatch walk; and the
`while (blocking && tailpos > 0)` loop condition). -/
def sopnopStep (cfg : Cfg) (s : Sys) (a : Act) : Option Sys :=
  match a with
  | .sReadSel i =>
    match s.senders.get? i with
    | some SPhase.idle =>
      some { s with senders := s.senders.set i (SPhase.gotSel s.sel) }
    | _ => none
  | .sReserve i =>
    match s.senders.get? i with
    | some (SPhase.gotSel qv) =>
      if qv = 0 ∨ qv = 1 then
        let q := qv == 1
        let m := cfg.msgs.getD i default
        let n : Int := msgSize m
        let off := sTail s q
        if 0 ≤ off ∧ off + n ≤ cfg.Q then
          some (setSTail
            { s with senders := s.senders.set i (SPhase.writing q off),
                     accepted := s.accepted ++ [m] } q (off + n))
        else
          some (setSTail
            { s with senders := s.senders.set i (SPhase.rollingBack q) } q (off + n))
      else some { s with assertFailed := true }
    | _ => none
  | .sPut i =>
    match s.senders.get? i with
    | some (SPhase.writing q off) =>
      let m := cfg.msgs.getD i default
      some (setSBuf { s with senders := s.senders.set i (SPhase.bumping q off) } q
              (writeBuf (sBuf s q) off.toNat (encodeMsg m)))
    | _ => none
  | .sBump i =>
    match s.senders.get? i with
    | some (SPhase.bumping q _) =>
      let m := cfg.msgs.getD i default
      some (setSReady { s with senders := s.senders.set i SPhase.doneOk } q
              (sReady s q + msgSize m))
    | _ => none
  | .sRollback i =>
    match s.senders.get? i with
    | some (SPhase.rollingBack q) =>
      let m := cfg.msgs.getD i default
      some (setSTail { s with senders := s.senders.set i SPhase.doneAgain } q
              (sTail s q - msgSize m))
    | _ => none
  | .dCall b =>
    match s.dr with
    | DPhase.rest => some { s with dr := DPhase.start b }
    | _ => none
  | .dReadSel =>
    match s.dr with
    | DPhase.start b =>
      if s.sel = 0 ∨ s.sel = 1 then
        some { s with dr := DPhase.readTail b (s.sel == 1) }
      else some { s with assertFailed := true }
    | _ => none
  | .dReadTail =>
    match s.dr with
    | DPhase.readTail b q => some { s with dr := DPhase.checkTail b q (sTail s q) }
    | _ => none
  | .dCheckTail =>
    match s.dr with
    | DPhase.checkTail b q t =>
      if t > 0 then some { s with dr := DPhase.quiesce b q t }
      else some { s with dr := DPhase.rest }
    | _ => none
  | .dQuiesce =>
    match s.dr with
    | DPhase.quiesce b q t =>
      if sTail s (!q) = s.prevTailpos then some { s with dr := DPhase.resetTail b q t }
      else some s
    | _ => none
  | .dResetTail =>
    match s.dr with
    | DPhase.resetTail b q t =>
      some (setSTail { s with dr := DPhase.swapSel b q t } (!q) 0)
    | _ => none
  | .dSwapSel =>
    match s.dr with
    | DPhase.swapSel b q t =>
      let s1 := { s with sel := s.sel + (if q then -1 else 1), dr := DPhase.freeze b q t }
      if s.sel = (if q then 1 else 0) then some s1
      else some { s1 with assertFailed := true }
    | _ => none
  | .dFreeze =>
    match s.dr with
    | DPhase.freeze b q t =>
      let sub := -t - BIG
      some (setSTail { s with dr := DPhase.waitReady b q sub } q (sTail s q + sub))
    | _ => none
  | .dWaitReady =>
    match s.dr with
    | DPhase.waitReady b q sub =>
      some { s with dr := DPhase.waitTail b q sub (sReady s q) }
    | _ => none
  | .dWaitTail =>
    match s.dr with
    | DPhase.waitTail b q sub r =>
      let tp := sTail s q - sub
      let s1 := if r ≤ tp then s else { s with assertFailed := true }
      if r = tp then some { s1 with dr := DPhase.recordTail b q sub tp }
      else some { s1 with dr := DPhase.waitReady b q sub }
    | _ => none
  | .dRecord =>
    match s.dr with
    | DPhase.recordTail b q sub tp =>
      some { s with prevTailpos := sub + tp, dr := DPhase.resetReady b q tp }
    | _ => none
  | .dResetReady =>
    match s.dr with
    | DPhase.resetReady b q tp =>
      some (setSReady { s with dr := DPhase.dispatch b q tp } q 0)
    | _ => none
  | .dDispatch =>
    match s.dr with
    | DPhase.dispatch b q tp =>
      let parsed := parseLoop (sBuf s q) tp 0 tp.toNat
      some { s with
             dispatched := s.dispatched ++ parsed.1.map (fun r => (r.fn, r.payload)),
             assertFailed := s.assertFailed || !parsed.2,
             dr := DPhase.loopEnd b tp }
    | _ => none
  | .dLoopEnd =>
    match s.dr with
    | DPhase.loopEnd b tp =>
      if b ∧ tp > 0 then some { s with dr := DPhase.start b }
      else some { s with dr := DPhase.rest }
    | _ => none

def sopnopRun (cfg : Cfg) : Sys → List Act → Option Sys
  | s, [] => some s
  | s, a :: acts =>
    match sopnopStep cfg s a with
    | some s1 => sopnopRun cfg s1 acts
    | none => none

/-- Initial system state after `dart_amsg_sopnop_openq`: zeroed window,
`prev_tailpos = 0`, all senders about to call, drainer idle. -/
def sopnopInit (nSenders : Nat) : Sys :=
  { sel := 0, tail0 := 0, tail1 := 0, ready0 := 0, ready1 := 0,
    buf0 := fun _ => 0, buf1 := fun _ => 0, prevTailpos := 0,
    senders := List.replicate nSenders SPhase.idle, dr := DPhase.rest,
    accepted := [], dispatched := [], assertFailed := false }

/-! ## Call-structure model of `dart_amsg_sopnop_process_blocking`

The events of one `process_blocking` call, driven by an oracle listing the
successive results of `MPI_Test` on the non-blocking barrier request. -/
inductive PBEv where
  | flushCaches
  | ibarrierStart
  | drainBlocking
  | barrierTest (flag : Bool)
  | finalBarrier
  deriving DecidableEq, Repr

/-- The `do { process(true); MPI_Test } while (!flag)` loop (lines 512-515). -/
def pbLoop : List Bool → Option (List PBEv)
  | [] => none
  | f :: rest =>
    if f then some [PBEv.drainBlocking, PBEv.barrierTest true]
    else (pbLoop rest).map
      (fun evs => PBEv.drainBlocking :: PBEv.barrierTest false :: evs)

/-- Model of `dart_amsg_sopnop_process_blocking` (lines 501-519): flush the
sender caches, start the non-blocking barrier, loop draining in blocking mode
until the test succeeds, drain once more, final barrier, return `DART_OK`. -/
def dart_amsg_sopnop_process_blocking (flags : List Bool) :
    Option (List PBEv × DartRet) :=
  (pbLoop flags).map (fun evs =>
    (PBEv.flushCaches :: PBEv.ibarrierStart ::
      (evs ++ [PBEv.drainBlocking, PBEv.finalBarrier]), DartRet.ok))

/-! ## Lock-discipline model of `bsend` and `flush_buffer`

Lock and unlock events on the AMQ `send_mutex` and on the per-target cache
mutexes, as issued by `dart_amsg_sopnop_bsend` (lines 523-570) and
`dart_amsg_sopnop_flush_buffer` (lines 459-497).  The retry loops around
`dart_amsg_sopnop_sendbuf` are driven by an oracle listing that call's
successive results (the loops stop at the first result that is not
`DART_ERR_AGAIN`); interleaved non-blocking `process` calls touch only the
`processing_mutex`, which neither function acquires. -/
inductive LEv where
  | lockSend
  | unlockSend
  | lockCache (t : Nat)
  | unlockCache (t : Nat)
  deriving DecidableEq, Repr

/-- First result of the successive `sendbuf` attempts that is not
`DART_ERR_AGAIN` (the value on which the drain retry loop settles). -/
def firstSettled : List DartRet → Option DartRet
  | [] => none
  | r :: rs => if r = DartRet.again then firstSettled rs else some r

/-- Lock-discipline model of `dart_amsg_sopnop_bsend`: optional lazy cache
allocation under `send_mutex`, cache mutex lock, on overflow the drain retry
loop (`return ret` on a result that is neither OK nor AGAIN, with no unlock),
then append and unlock.  `none` models a drain loop that never settles. -/
def dart_amsg_sopnop_bsend (needAlloc : Bool) (t : Nat) (pos data_size : Nat)
    (attempts : List DartRet) : Option (List LEv × DartRet) :=
  let alloc := if needAlloc then [LEv.lockSend, LEv.unlockSend] else []
  if pos + headerSize + data_size > MSGCACHE_SIZE then
    match firstSettled attempts with
    | none => none
    | some DartRet.ok =>
      some (alloc ++ [LEv.lockCache t, LEv.unlockCache t], DartRet.ok)
    | some r => some (alloc ++ [LEv.lockCache t], r)
  else
    some (alloc ++ [LEv.lockCache t, LEv.unlockCache t], DartRet.ok)

/-- Per-target loop of `dart_amsg_sopnop_flush_buffer`: each allocated cache
slot is `(target, pos, attempts)`.  On a hard `sendbuf` error the function
returns with the current cache mutex still held (the source unlocks only
`send_mutex` on that path). -/
def flushCacheLoop : List (Nat × Nat × List DartRet) → Option (List LEv × DartRet)
  | [] => some ([], DartRet.ok)
  | (t, pos, attempts) :: rest =>
    if pos = 0 then
      (flushCacheLoop rest).map
        (fun p => (LEv.lockCache t :: LEv.unlockCache t :: p.1, p.2))
    else
      match firstSettled attempts with
      | none => none
      | some DartRet.ok =>
        (flushCacheLoop rest).map
          (fun p => (LEv.lockCache t :: LEv.unlockCache t :: p.1, p.2))
      | some r => some ([LEv.lockCache t], r)

/-- Lock-discipline model of `dart_amsg_sopnop_flush_buffer`: everything runs
under `send_mutex`, which is released on every return path (line 483 and line
494); the per-target cache mutexes are handled by `flushCacheLoop`. -/
def dart_amsg_sopnop_flush_buffer (caches : List (Nat × Nat × List DartRet)) :
    Option (List LEv × DartRet) :=
  (flushCacheLoop caches).map
    (fun p => (LEv.lockSend :: p.1 ++ [LEv.unlockSend], p.2))

/-- Every mutex acquired in a trace is released: lock and unlock events are
matched in number, for the send mutex and for every cache mutex. -/
def lockBalanced (evs : List LEv) : Prop :=
  evs.count LEv.lockSend = evs.count LEv.unlockSend ∧
  ∀ t, evs.count (LEv.lockCache t) = evs.count (LEv.unlockCache t)

/-! ## Concrete interleavings for claims C1, C4 and C6

The scenarios exploit the window between the drainer's successful quiesce
read of `tail[newqueue]` (the poll against `prev_tailpos`, lines 305-315) and
the subsequent `MPI_REPLACE` reset (lines 318-326): a reservation that lands
in that window is wiped by the reset, and its later rollback drives the tail
of the queue that is about to become active negative. -/

/-- Sender 0 and 1: 16-byte messages delivered normally in the first two
drain cycles.  Sender 2: the stale 24-byte reservation that is wiped.
Senders 3 and 4: the post-corruption senders. -/
def msgW : Msg := ⟨100, 0, []⟩

def msgY : Msg := ⟨101, 0, []⟩

def msgX : Msg := ⟨102, 0, [5, 5, 5, 5, 5, 5, 5, 5]⟩

def msgP1 : Msg := ⟨103, 0, [6, 6, 6, 6, 6, 6, 6, 6, 6, 6, 6, 6, 6, 6, 6, 6]⟩

def msgP2lost : Msg := ⟨104, 0, [9, 9, 9]⟩

def cfg1 : Cfg := ⟨128, [msgW, msgY, msgX, msgP1, msgP2lost]⟩

/-- C1 interleaving: W delivered in cycle 1 (queue 0); X reads the selector
before cycle 1; Y delivered in cycle 2 (queue 1); X's reservation on queue 0
lands between cycle 2's quiesce read and reset and is wiped; X's rollback
leaves `tail[0] = -24` although queue 0 is active; P1's rejected reservation
transiently lifts the tail to 8, P2 reserves there successfully (OK returned,
ready bumped), P1's rollback drops the tail to -5; the final `process` call
sees a non-positive tail and dispatches nothing. -/
def c1trace : List Act :=
  [Act.sReadSel 0, Act.sReserve 0, Act.sPut 0, Act.sBump 0,
   Act.sReadSel 2,
   Act.dCall false, Act.dReadSel, Act.dReadTail, Act.dCheckTail,
   Act.dQuiesce, Act.dResetTail, Act.dSwapSel, Act.dFreeze,
   Act.dWaitReady, Act.dWaitTail, Act.dRecord, Act.dResetReady,
   Act.dDispatch, Act.dLoopEnd,
   Act.sReadSel 1, Act.sReserve 1, Act.sPut 1, Act.sBump 1,
   Act.dCall false, Act.dReadSel, Act.dReadTail, Act.dCheckTail,
   Act.dQuiesce,
   Act.sReserve 2,
   Act.dResetTail, Act.dSwapSel, Act.dFreeze,
   Act.dWaitReady, Act.dWaitTail, Act.dRecord, Act.dResetReady,
   Act.dDispatch, Act.dLoopEnd,
   Act.sRollback 2,
   Act.sReadSel 3, Act.sReserve 3,
   Act.sReadSel 4, Act.sReserve 4, Act.sPut 4, Act.sBump 4,
   Act.sRollback 3,
   Act.dCall false, Act.dReadSel, Act.dReadTail, Act.dCheckTail]

def msgP2c4 : Msg := ⟨104, 0, []⟩

def cfg4 : Cfg := ⟨128, [msgW, msgY, msgX, msgP1, msgP2c4]⟩

/-- C4 interleaving: same corruption as `c1trace`, but the drainer starts a
third cycle while P1's rollback is still pending; the rollback lands after
the freeze, and the wait loop then observes `readypos = 16` against a
recovered `tailpos = -8`. -/
def c4pre : List Act :=
  [Act.sReadSel 0, Act.sReserve 0, Act.sPut 0, Act.sBump 0,
   Act.sReadSel 2,
   Act.dCall false, Act.dReadSel, Act.dReadTail, Act.dCheckTail,
   Act.dQuiesce, Act.dResetTail, Act.dSwapSel, Act.dFreeze,
   Act.dWaitReady, Act.dWaitTail, Act.dRecord, Act.dResetReady,
   Act.dDispatch, Act.dLoopEnd,
   Act.sReadSel 1, Act.sReserve 1, Act.sPut 1, Act.sBump 1,
   Act.dCall false, Act.dReadSel, Act.dReadTail, Act.dCheckTail,
   Act.dQuiesce,
   Act.sReserve 2,
   Act.dResetTail, Act.dSwapSel, Act.dFreeze,
   Act.dWaitReady, Act.dWaitTail, Act.dRecord, Act.dResetReady,
   Act.dDispatch, Act.dLoopEnd,
   Act.sRollback 2,
   Act.sReadSel 3, Act.sReserve 3,
   Act.sReadSel 4, Act.sReserve 4, Act.sPut 4, Act.sBump 4,
   Act.dCall false, Act.dReadSel, Act.dReadTail, Act.dCheckTail,
   Act.dQuiesce, Act.dResetTail, Act.dSwapSel, Act.dFreeze,
   Act.sRollback 3,
   Act.dWaitReady]

def c4trace : List Act := c4pre ++ [Act.dWaitTail]

def msgZ : Msg := ⟨105, 0, [1, 2, 3, 4, 5, 6, 7, 8]⟩

def cfg6 : Cfg := ⟨128, [msgW, msgZ]⟩

/-- C6 interleaving: a stale sender's reservation lands between the wait
loop's final tail read and the `prev_tailpos` update, so the recorded
residual differs from the value actually remaining in the tail. -/
def c6trace : List Act :=
  [Act.sReadSel 0, Act.sReserve 0, Act.sPut 0, Act.sBump 0,
   Act.sReadSel 1,
   Act.dCall false, Act.dReadSel, Act.dReadTail, Act.dCheckTail,
   Act.dQuiesce, Act.dResetTail, Act.dSwapSel, Act.dFreeze,
   Act.dWaitReady, Act.dWaitTail,
   Act.sReserve 1,
   Act.dRecord]

/-- Concrete state for the witness of `drain_residual_bookkeeping`: drainer
in the wait loop on queue 0 with `sub = -16` and a matching ready read. -/
def sC6wit : Sys := { sopnopInit 0 with dr := DPhase.waitTail false false (-16) 20, tail0 := 4 }

def sC6wit2 : Sys := { sopnopInit 0 with dr := DPhase.quiesce false false 3 }

instance msgWfDecidable (m : Msg) : Decidable (msgWf m) :=
  inferInstanceAs
    (Decidable (m.fn < 2 ^ 64 ∧ m.remote < 2 ^ 32 ∧ m.payload.length < 2 ^ 32))

def c5L : List Msg := [⟨7, 1, [3]⟩, ⟨9, 2, []⟩]

def c5f : Nat → Nat := fun j => (batchBytes c5L).getD j 0

/-! ## Theorems -/

theorem leBytes_length (w n : Nat) : (leBytes w n).length = w := by
  induction w generalizing n with
  | zero => rfl
  | succ w ih => simp [leBytes, ih]

theorem encodeMsg_length (m : Msg) : (encodeMsg m).length = msgSize m := by
  simp [encodeMsg, msgSize, headerSize, leBytes_length]
  omega

/-! ## Claims C2, C3, C7, C9: the sender path and teardown, per call -/

/-- C2: `send_buffer(target, buf, n)` returns OK exactly when the fetched
reservation satisfies `offset >= 0` and `offset + n <= Q`; in that case, with
`q` the selector value it read, it writes the `n` bytes of `buf` at
`data[q] + offset`, remote-flushes before signalling, then adds `n` to
`ready[q]` followed by another remote flush. -/
theorem sendbuf_ok_iff_in_range_and_commit (Q : Int) (s : WState) (buf : List Nat)
    (hsel : s.sel = 0 ∨ s.sel = 1) :
    ((dart_amsg_sopnop_sendbuf Q s buf).res = DartRet.ok ↔
      (0 ≤ wTail s (s.sel == 1) ∧ wTail s (s.sel == 1) + buf.length ≤ Q)) ∧
    (0 ≤ wTail s (s.sel == 1) → wTail s (s.sel == 1) + buf.length ≤ Q →
      (dart_amsg_sopnop_sendbuf Q s buf).ops =
        [Op.fetchQueuenum, Op.flushLocal,
         Op.fetchAddTail (s.sel == 1) buf.length, Op.flushLocal,
         Op.putBytes (OFFSET_DATA (s.sel == 1) Q + wTail s (s.sel == 1)) buf,
         Op.flushRemote, Op.accReady (s.sel == 1) buf.length, Op.flushRemote] ∧
      wReady (dart_amsg_sopnop_sendbuf Q s buf).fin (s.sel == 1) =
        wReady s (s.sel == 1) + buf.length ∧
      wTail (dart_amsg_sopnop_sendbuf Q s buf).fin (s.sel == 1) =
        wTail s (s.sel == 1) + buf.length ∧
      (∀ j : Nat, j < buf.length →
        (dart_amsg_sopnop_sendbuf Q s buf).fin.wbuf
          (OFFSET_DATA (s.sel == 1) Q + wTail s (s.sel == 1) + j) = buf.getD j 0)) := by
  simp only [dart_amsg_sopnop_sendbuf]
  by_cases h : 0 ≤ wTail s (s.sel == 1) ∧ wTail s (s.sel == 1) + (buf.length : Int) ≤ Q
  · rw [if_pos h]
    refine ⟨by simp [h.1, h.2], fun h1 h2 => ⟨rfl, ?_, ?_, ?_⟩⟩
    · cases hq : (s.sel == 1) <;> simp [setWReady, setWTail, wReady, hq]
    · cases hq : (s.sel == 1) <;> simp [setWReady, setWTail, wTail, hq]
    · intro j hj
      cases hq : (s.sel == 1) <;>
        · simp only [setWReady, setWTail, hq, if_neg, if_pos, Bool.false_eq_true,
            ite_false, ite_true]
          simp only [writeW]
          rw [if_pos (by constructor <;> omega)]
          congr 1
          omega
  · rw [if_neg h]
    exact ⟨by simp [h], fun h1 h2 => absurd ⟨h1, h2⟩ h⟩

/-- Witness for `sendbuf_ok_iff_in_range_and_commit` at a concrete input. -/
theorem sendbuf_ok_iff_in_range_and_commit_witness :
    (wZero.sel = 0 ∨ wZero.sel = 1) ∧
    ((dart_amsg_sopnop_sendbuf 64 wZero [1, 2, 3]).res = DartRet.ok ↔
      (0 ≤ wTail wZero (wZero.sel == 1) ∧
        wTail wZero (wZero.sel == 1) + ([1, 2, 3] : List Nat).length ≤ 64)) :=
  ⟨Or.inl rfl, (sendbuf_ok_iff_in_range_and_commit 64 wZero [1, 2, 3] (Or.inl rfl)).1⟩

/-- C3: whenever `send_buffer` returns `ERR_AGAIN` it has first added `n` and
then added `-n` to `tail[q]` (remote-flushing the rollback), its net
contribution to `tail[q]` is zero, it performs no payload put and no
`ready[q]` update, and it does not retry internally (exactly one reservation
fetch-and-add in the call). -/
theorem sendbuf_again_rollback (Q : Int) (s : WState) (buf : List Nat)
    (hsel : s.sel = 0 ∨ s.sel = 1) :
    ((dart_amsg_sopnop_sendbuf Q s buf).res = DartRet.again ↔
      ¬(0 ≤ wTail s (s.sel == 1) ∧ wTail s (s.sel == 1) + buf.length ≤ Q)) ∧
    ((dart_amsg_sopnop_sendbuf Q s buf).res = DartRet.again →
      (dart_amsg_sopnop_sendbuf Q s buf).ops =
        [Op.fetchQueuenum, Op.flushLocal,
         Op.fetchAddTail (s.sel == 1) buf.length, Op.flushLocal,
         Op.accTail (s.sel == 1) (-(buf.length : Int)), Op.flushRemote] ∧
      wTail (dart_amsg_sopnop_sendbuf Q s buf).fin (s.sel == 1) =
        wTail s (s.sel == 1) ∧
      wReady (dart_amsg_sopnop_sendbuf Q s buf).fin false = wReady s false ∧
      wReady (dart_amsg_sopnop_sendbuf Q s buf).fin true = wReady s true ∧
      (∀ o bs, Op.putBytes o bs ∉ (dart_amsg_sopnop_sendbuf Q s buf).ops) ∧
      ((dart_amsg_sopnop_sendbuf Q s buf).ops.countP
        (fun o => match o with | Op.fetchAddTail _ _ => true | _ => false)) = 1) := by
  simp only [dart_amsg_sopnop_sendbuf]
  by_cases h : 0 ≤ wTail s (s.sel == 1) ∧ wTail s (s.sel == 1) + (buf.length : Int) ≤ Q
  · rw [if_pos h]
    refine ⟨by simp [h.1, h.2], fun hres => absurd hres (by simp)⟩
  · rw [if_neg h]
    refine ⟨by simpa using h, fun _ => ⟨rfl, ?_, ?_, ?_, ?_, ?_⟩⟩
    · cases hq : (s.sel == 1) <;>
        · simp [setWTail, wTail, hq]
    · cases hq : (s.sel == 1) <;> simp [setWTail, wReady, hq]
    · cases hq : (s.sel == 1) <;> simp [setWTail, wReady, hq]
    · intro o bs
      simp
    · rfl

/-- Witness for `sendbuf_again_rollback` at a concrete full-queue input. -/
theorem sendbuf_again_rollback_witness :
    (wZero.sel = 0 ∨ wZero.sel = 1) ∧
    ((dart_amsg_sopnop_sendbuf 2 wZero [1, 2, 3]).res = DartRet.again ↔
      ¬(0 ≤ wTail wZero (wZero.sel == 1) ∧
        wTail wZero (wZero.sel == 1) + ([1, 2, 3] : List Nat).length ≤ 2)) :=
  ⟨Or.inl rfl, (sendbuf_again_rollback 2 wZero [1, 2, 3] (Or.inl rfl)).1⟩

/-- C7: `dart_amsg_sopnop_trysend` contains no debug assertion and no
`ERR_INVAL` check on `data_size`.  With `msg_size = 16`, `msg_count = 4`
(so `Q = 4 * (16 + 16) = 128`) and a 17-byte payload (`data_size = 17 >
max_msg_size = 16`), `trysend` on an empty queue returns `DART_OK` and
injects the 33-byte message (the ready counter of sub-queue 0 is bumped to
33), contradicting the claimed rejection. -/
theorem trysend_oversize_is_accepted :
    (dart_amsg_sopnop_trysend (openqQueueSize 16 4) wZero 5 3
        (List.replicate 17 7)).res = DartRet.ok ∧
    (List.replicate 17 (7 : Nat)).length > 16 ∧
    (dart_amsg_sopnop_trysend (openqQueueSize 16 4) wZero 5 3
        (List.replicate 17 7)).fin.ready0 = 33 ∧
    (dart_amsg_sopnop_trysend (openqQueueSize 16 4) wZero 5 3
        (List.replicate 17 7)).res ≠ DartRet.inval := by
  refine ⟨by decide, by decide, ?_, by decide⟩
  decide

/-- Counterexample for C9: with the active tail counter equal to `2^32`
(non-zero), the 32-bit fetch in `dart_amsg_sopnop_closeq` reads 0 and no
warning is emitted, refuting "emits a warning if and only if the 64-bit
counter is non-zero". -/
theorem closeq_counterexample_high_bits :
    (dart_amsg_sopnop_closeq
        { wZero with tail0 := 2 ^ 32 }).warn = false ∧
    ({ wZero with tail0 := 2 ^ 32 } : WState).tail0 ≠ 0 ∧
    ({ wZero with tail0 := 2 ^ 32 } : WState).sel = 0 := by
  refine ⟨?_, by decide, rfl⟩
  decide

/-- C9 (amended): `closeq` reads only the low 32 bits of the active
sub-queue's tail counter, warns iff those 32 bits are non-zero, never invokes
a handler, and returns OK. -/
theorem closeq_warn_iff_low32 (s : WState) (hsel : s.sel = 0 ∨ s.sel = 1) :
    ((dart_amsg_sopnop_closeq s).warn = true ↔
      wTail s (s.sel == 1) % (2 ^ 32) ≠ 0) ∧
    (dart_amsg_sopnop_closeq s).invoked = [] ∧
    (dart_amsg_sopnop_closeq s).res = DartRet.ok := by
  have hnn : 0 ≤ wTail s (s.sel == 1) % (2 ^ 32) :=
    Int.emod_nonneg _ (by norm_num)
  refine ⟨?_, rfl, rfl⟩
  unfold dart_amsg_sopnop_closeq
  simp only [decide_eq_true_eq]
  omega

/-- Witness for `closeq_warn_iff_low32` at a concrete input. -/
theorem closeq_warn_iff_low32_witness :
    (wZero.sel = 0 ∨ wZero.sel = 1) ∧
    ((dart_amsg_sopnop_closeq wZero).warn = true ↔
      wTail wZero (wZero.sel == 1) % (2 ^ 32) ≠ 0) :=
  ⟨Or.inl rfl, (closeq_warn_iff_low32 wZero (Or.inl rfl)).1⟩

/-! ## Claims C1, C4, C6: the interleaved protocol -/

/-- C1: exactly-once delivery fails on the code.  In the interleaving
`c1trace`, every sender has finished (three `sendbuf` calls returned
`DART_OK`, two returned `DART_ERR_AGAIN`), the drainer is idle after a final
`process` call that found a non-positive tail on the active queue (and the
inactive queue's tail is the recorded negative residual), no `DART_ASSERT`
fired — yet the message of sender 4, whose `trysend` returned `DART_OK` and
which therefore appears in `accepted`, was never dispatched: its reservation
was wiped by the `MPI_REPLACE` tail reset racing with it, and the wiping left
`tail[0]` negative so the batch containing it was never drained. -/
theorem exactly_once_violated_by_wiped_reservation :
    (sopnopRun cfg1 (sopnopInit 5) c1trace).map
        (fun s => (s.accepted, s.dispatched)) =
      some ([msgW, msgY, msgP2lost], [(100, []), (101, [])]) ∧
    (sopnopRun cfg1 (sopnopInit 5) c1trace).map
        (fun s => (s.senders, s.dr, decide (s.tail0 ≤ 0 ∧ s.tail1 ≤ 0),
                   s.assertFailed)) =
      some ([SPhase.doneOk, SPhase.doneOk, SPhase.doneAgain, SPhase.doneAgain,
             SPhase.doneOk], DPhase.rest, true, false) ∧
    msgP2lost ∈ [msgW, msgY, msgP2lost] ∧
    ((msgP2lost.fn, msgP2lost.payload) ∉
      ([(100, []), (101, [])] : List (Nat × List Nat))) := by
  refine ⟨by decide, by decide, by decide, by decide⟩

/-- C4: the drainer's wait loop can observe `readypos > tailpos`, violating
both the claimed invariant and the source's own
`DART_ASSERT(readypos <= tailpos)` (line 386).  After `c4pre`, the drainer
sits in the wait loop holding `readypos = 16` while `tail[0]` is
`-(INT32_MAX + 32)` under the freeze bias `sub = -24 - INT32_MAX`, so the
recovered `tailpos` is `-8`; executing the wait loop's tail read
(`Act.dWaitTail`) then records the assertion failure. -/
theorem wait_loop_observes_ready_above_tail :
    (sopnopRun cfg4 (sopnopInit 5) c4pre).map
        (fun s => (s.dr, s.ready0, s.tail0, s.assertFailed)) =
      some (DPhase.waitTail false false (-24 - BIG) 16, 16, -(BIG + 32), false) ∧
    (16 : Int) > -(BIG + 32) - (-24 - BIG) ∧
    (sopnopRun cfg4 (sopnopInit 5) c4trace).map (fun s => s.assertFailed) =
      some true := by
  refine ⟨by decide, by decide, by decide⟩

/-- Counterexample for C6: the recorded `prev_tail = sub + tail_now` does not
always equal the value actually remaining in `tail[q]` — a stale sender's
reservation can land between the wait loop's final tail read and the
`prev_tailpos` update.  In `c6trace` the drainer records
`prev_tailpos = -INT32_MAX` while `tail[0]` is `-INT32_MAX + 24`. -/
theorem recorded_residual_differs_from_tail :
    (sopnopRun cfg6 (sopnopInit 2) c6trace).map
        (fun s => (s.prevTailpos, s.tail0, s.dr)) =
      some (-BIG, -BIG + 24, DPhase.resetReady false false 16) ∧
    (-BIG : Int) ≠ -BIG + 24 := by
  refine ⟨by decide, by decide⟩

/-- C6 (amended): the recorded `prev_tail = sub + tail_now` equals the tail
value the drainer read at the wait loop's exit — so, absent sender operations
interleaved between that read and the update, it is the value remaining in
`tail[q]` (executing the two drainer steps back-to-back leaves
`tail[q] = prev_tailpos`); the initial residual is 0; and the next cycle's
quiesce spin advances only when the other queue's tail equals exactly
`prev_tailpos`, after which the reset replaces that tail with 0. -/
theorem drain_residual_bookkeeping (cfg : Cfg) (s : Sys) (b q : Bool) (sub r : Int)
    (h1 : s.dr = DPhase.waitTail b q sub r)
    (h2 : r = sTail s q - sub) (n : Nat) (s2 : Sys) (b2 q2 : Bool) (t2 : Int)
    (h3 : s2.dr = DPhase.quiesce b2 q2 t2) :
    ((sopnopStep cfg s Act.dWaitTail).bind
        (fun s1 => sopnopStep cfg s1 Act.dRecord)).map
      (fun s' => (s'.prevTailpos, sTail s' q)) = some (sTail s q, sTail s q) ∧
    (sopnopInit n).prevTailpos = 0 ∧
    sopnopStep cfg s2 Act.dQuiesce =
      (if sTail s2 (!q2) = s2.prevTailpos
       then some { s2 with dr := DPhase.resetTail b2 q2 t2 } else some s2) ∧
    (∀ s3 : Sys, ∀ b3 q3 : Bool, ∀ t3 : Int, s3.dr = DPhase.resetTail b3 q3 t3 →
      sopnopStep cfg s3 Act.dResetTail =
        some (setSTail { s3 with dr := DPhase.swapSel b3 q3 t3 } (!q3) 0)) := by
  refine ⟨?_, rfl, ?_, ?_⟩
  · subst h2
    unfold sopnopStep
    rw [h1]
    simp only [le_refl, if_true, if_pos]
    simp only [Option.some_bind, Option.map_some', Option.some.injEq, Prod.mk.injEq]
    constructor
    · omega
    · cases q <;> simp [sTail]
  · unfold sopnopStep
    rw [h3]
  · intro s3 b3 q3 t3 h4
    unfold sopnopStep
    rw [h4]

/-- Witness for `drain_residual_bookkeeping` at a concrete input. -/
theorem drain_residual_bookkeeping_witness :
    ((20 : Int) = sTail sC6wit false - (-16)) ∧
    ((sopnopStep ⟨128, []⟩ sC6wit Act.dWaitTail).bind
        (fun s1 => sopnopStep ⟨128, []⟩ s1 Act.dRecord)).map
      (fun s' => (s'.prevTailpos, sTail s' false)) =
      some (sTail sC6wit false, sTail sC6wit false) :=
  ⟨by decide,
   (drain_residual_bookkeeping ⟨128, []⟩ sC6wit false false (-16) 20 rfl (by decide)
      0 sC6wit2 false false 3 rfl).1⟩

/-! ## Claim C8: structure of `process_blocking` -/

theorem pbLoop_replicate (k : Nat) :
    pbLoop (List.replicate k false ++ [true]) =
      some ((List.replicate k [PBEv.drainBlocking, PBEv.barrierTest false]).flatten ++
        [PBEv.drainBlocking, PBEv.barrierTest true]) := by
  induction k with
  | zero => simp [pbLoop]
  | succ k ih => simp [List.replicate_succ, pbLoop, ih]

/-- C8: `process_blocking` first drains the local sender caches, then starts
a non-blocking team barrier, repeatedly drains in blocking mode until the
barrier test succeeds (for any number `k` of failed tests), drains once more,
performs the closing team barrier, and returns OK; and the drain's outer loop
in blocking mode continues exactly while the recovered `tail_now` is
positive (`while (blocking && tailpos > 0)`). -/
theorem process_blocking_structure (k : Nat) (cfg : Cfg) (s : Sys) (b : Bool)
    (tp : Int) :
    dart_amsg_sopnop_process_blocking (List.replicate k false ++ [true]) =
      some (PBEv.flushCaches :: PBEv.ibarrierStart ::
        ((List.replicate k [PBEv.drainBlocking, PBEv.barrierTest false]).flatten ++
          [PBEv.drainBlocking, PBEv.barrierTest true, PBEv.drainBlocking,
           PBEv.finalBarrier]), DartRet.ok) ∧
    sopnopStep cfg { s with dr := DPhase.loopEnd b tp } Act.dLoopEnd =
      (if b ∧ tp > 0 then some { s with dr := DPhase.start b }
       else some { s with dr := DPhase.rest }) := by
  constructor
  · simp [dart_amsg_sopnop_process_blocking, pbLoop_replicate]
  · by_cases hc : b = true ∧ tp > 0
    · simp [sopnopStep, hc]
    · simp [sopnopStep, hc]

/-! ## Claim C10: lock discipline of `bsend` and `flush_buffer` -/

/-- Counterexample for C10: on the (hard, non-AGAIN `sendbuf` error) return
path, `bsend` and `flush_buffer` return with the per-target cache mutex still
locked — the traces contain an unmatched `lockCache`. -/
theorem hard_error_path_leaks_cache_mutex :
    dart_amsg_sopnop_bsend false 0 4090 100 [DartRet.other] =
      some ([LEv.lockCache 0], DartRet.other) ∧
    ¬ lockBalanced [LEv.lockCache 0] ∧
    dart_amsg_sopnop_flush_buffer [(0, 5, [DartRet.other])] =
      some ([LEv.lockSend, LEv.lockCache 0, LEv.unlockSend], DartRet.other) ∧
    ¬ lockBalanced [LEv.lockSend, LEv.lockCache 0, LEv.unlockSend] := by
  refine ⟨by decide, fun h => absurd (h.2 0) (by decide), by decide,
    fun h => absurd (h.2 0) (by decide)⟩

theorem firstSettled_of_soft (l : List DartRet)
    (h : ∀ x ∈ l, x = DartRet.ok ∨ x = DartRet.again) :
    firstSettled l = none ∨ firstSettled l = some DartRet.ok := by
  induction l with
  | nil => exact Or.inl rfl
  | cons r rs ih =>
    rcases h r (by simp) with hr | hr
    · subst hr
      exact Or.inr rfl
    · subst hr
      simpa [firstSettled] using ih (fun x hx => h x (by simp [hx]))

theorem lockBalanced_pair (t : Nat) (l : List LEv) (h : lockBalanced l) :
    lockBalanced (LEv.lockCache t :: LEv.unlockCache t :: l) := by
  refine ⟨?_, fun u => ?_⟩
  · simpa [List.count_cons] using h.1
  · by_cases hu : u = t
    · subst hu
      simpa [List.count_cons] using h.2 u
    · simp [List.count_cons, hu, h.2 u]

theorem lockBalanced_wrap (l : List LEv) (h : lockBalanced l) :
    lockBalanced (LEv.lockSend :: l ++ [LEv.unlockSend]) := by
  refine ⟨?_, fun u => ?_⟩
  · simp [List.count_cons, List.count_append, h.1]
  · simpa [List.count_cons, List.count_append] using h.2 u

theorem lockBalanced_alloc_pair (needAlloc : Bool) (t : Nat) :
    lockBalanced ((if needAlloc then [LEv.lockSend, LEv.unlockSend] else []) ++
      [LEv.lockCache t, LEv.unlockCache t]) := by
  have hp : lockBalanced [LEv.lockCache t, LEv.unlockCache t] :=
    lockBalanced_pair t [] ⟨rfl, fun _ => rfl⟩
  cases needAlloc
  · simpa using hp
  · refine ⟨?_, fun u => ?_⟩
    · simpa [List.count_append, List.count_cons] using hp.1
    · simpa [List.count_append, List.count_cons] using hp.2 u

theorem flushCacheLoop_balanced (caches : List (Nat × Nat × List DartRet))
    (hC : ∀ c ∈ caches, ∀ x ∈ c.2.2, x = DartRet.ok ∨ x = DartRet.again) :
    ∀ evs r, flushCacheLoop caches = some (evs, r) → lockBalanced evs := by
  induction caches with
  | nil =>
    intro evs r h
    simp only [flushCacheLoop, Option.some.injEq, Prod.mk.injEq] at h
    obtain ⟨h1, -⟩ := h
    subst h1
    exact ⟨rfl, fun _ => rfl⟩
  | cons c rest ih =>
    obtain ⟨t, pos, attempts⟩ := c
    intro evs r h
    have ihr := ih (fun c hc => hC c (List.mem_cons_of_mem _ hc))
    by_cases hp : pos = 0
    · simp only [flushCacheLoop, hp, if_true] at h
      rcases hm : flushCacheLoop rest with _ | ⟨evs1, r1⟩ <;> rw [hm] at h
      · simp at h
      · simp only [Option.map_some', Option.some.injEq, Prod.mk.injEq] at h
        obtain ⟨h1, -⟩ := h
        subst h1
        exact lockBalanced_pair t evs1 (ihr evs1 r1 hm)
    · rcases firstSettled_of_soft attempts
          (hC (t, pos, attempts) (List.mem_cons_self _ _)) with hs | hs
      · simp [flushCacheLoop, hp, hs] at h
      · simp only [flushCacheLoop, hp, hs, if_neg] at h
        rcases hm : flushCacheLoop rest with _ | ⟨evs1, r1⟩ <;> rw [hm] at h
        · simp at h
        · simp only [if_false, Option.map_some', Option.some.injEq,
            Prod.mk.injEq] at h
          obtain ⟨h1, -⟩ := h
          subst h1
          exact lockBalanced_pair t evs1 (ihr evs1 r1 hm)

/-- C10 (amended): `sendbuf` returns only OK or ERR_AGAIN, so the hard-error
returns of `bsend` and `flush_buffer` (which would leave the per-target cache
mutex locked, see `hard_error_path_leaks_cache_mutex`) are unreachable; on
every return reachable with OK/AGAIN `sendbuf` results, every acquired mutex
is released. -/
theorem reachable_returns_release_all_mutexes (Q : Int) (w : WState)
    (buf : List Nat) (needAlloc : Bool) (t pos ds : Nat)
    (attempts : List DartRet)
    (hA : ∀ x ∈ attempts, x = DartRet.ok ∨ x = DartRet.again)
    (caches : List (Nat × Nat × List DartRet))
    (hC : ∀ c ∈ caches, ∀ x ∈ c.2.2, x = DartRet.ok ∨ x = DartRet.again) :
    ((dart_amsg_sopnop_sendbuf Q w buf).res = DartRet.ok ∨
      (dart_amsg_sopnop_sendbuf Q w buf).res = DartRet.again) ∧
    (∀ evs r, dart_amsg_sopnop_bsend needAlloc t pos ds attempts = some (evs, r) →
      lockBalanced evs) ∧
    (∀ evs r, dart_amsg_sopnop_flush_buffer caches = some (evs, r) →
      lockBalanced evs) := by
  refine ⟨?_, ?_, ?_⟩
  · by_cases hq : 0 ≤ wTail w (w.sel == 1) ∧
        wTail w (w.sel == 1) + (buf.length : Int) ≤ Q
    · left
      simp [dart_amsg_sopnop_sendbuf, hq]
    · right
      simp [dart_amsg_sopnop_sendbuf, hq]
  · intro evs r h
    simp only [dart_amsg_sopnop_bsend] at h
    by_cases hov : pos + headerSize + ds > MSGCACHE_SIZE
    · rw [if_pos hov] at h
      rcases firstSettled_of_soft attempts hA with hs | hs <;> rw [hs] at h
      · simp at h
      · simp only [Option.some.injEq, Prod.mk.injEq] at h
        obtain ⟨h1, -⟩ := h
        subst h1
        exact lockBalanced_alloc_pair needAlloc t
    · rw [if_neg hov] at h
      simp only [Option.some.injEq, Prod.mk.injEq] at h
      obtain ⟨h1, -⟩ := h
      subst h1
      exact lockBalanced_alloc_pair needAlloc t
  · intro evs r h
    simp only [dart_amsg_sopnop_flush_buffer] at h
    rcases hm : flushCacheLoop caches with _ | ⟨evs1, r1⟩ <;> rw [hm] at h
    · simp at h
    · simp only [Option.map_some', Option.some.injEq, Prod.mk.injEq] at h
      obtain ⟨h1, -⟩ := h
      subst h1
      exact lockBalanced_wrap evs1 (flushCacheLoop_balanced caches hC evs1 r1 hm)

/-- Witness for `reachable_returns_release_all_mutexes` at a concrete input. -/
theorem reachable_returns_release_all_mutexes_witness :
    (∀ x ∈ [DartRet.again, DartRet.ok], x = DartRet.ok ∨ x = DartRet.again) ∧
    (∀ c ∈ ([(0, 3, [DartRet.ok])] : List (Nat × Nat × List DartRet)),
      ∀ x ∈ c.2.2, x = DartRet.ok ∨ x = DartRet.again) ∧
    (∀ evs r, dart_amsg_sopnop_bsend true 0 4090 100 [DartRet.again, DartRet.ok] =
        some (evs, r) → lockBalanced evs) :=
  ⟨by decide, by decide,
   (reachable_returns_release_all_mutexes 64 wZero [] true 0 4090 100
      [DartRet.again, DartRet.ok] (by decide) [(0, 3, [DartRet.ok])]
      (by decide)).2.1⟩

/-! ## Claim C5: the dispatch walk -/

theorem leVal_leBytes4 (n : Nat) (h : n < 2 ^ 32) : leVal (leBytes 4 n) = n := by
  show n % 256 + 256 * (n / 256 % 256 + 256 * (n / 256 / 256 % 256 +
      256 * (n / 256 / 256 / 256 % 256 + 256 * 0))) = n
  omega

theorem leVal_leBytes8 (n : Nat) (h : n < 2 ^ 64) : leVal (leBytes 8 n) = n := by
  show n % 256 + 256 * (n / 256 % 256 + 256 * (n / 256 / 256 % 256 +
      256 * (n / 256 / 256 / 256 % 256 + 256 * (n / 256 / 256 / 256 / 256 % 256 +
      256 * (n / 256 / 256 / 256 / 256 / 256 % 256 +
      256 * (n / 256 / 256 / 256 / 256 / 256 / 256 % 256 +
      256 * (n / 256 / 256 / 256 / 256 / 256 / 256 / 256 % 256 + 256 * 0))))))) = n
  omega

theorem readBytes_eq_of_pointwise (l : List Nat) : ∀ (f : Nat → Nat) (b : Nat),
    (∀ j, j < l.length → f (b + j) = l.getD j 0) → readBytes f b l.length = l := by
  induction l with
  | nil => intro f b _; rfl
  | cons x xs ih =>
    intro f b h
    show f b :: readBytes f (b + 1) xs.length = x :: xs
    have hx := h 0 (by simp)
    rw [Nat.add_zero] at hx
    rw [hx]
    congr 1
    apply ih
    intro j hj
    have := h (j + 1) (by simp; omega)
    simpa [Nat.add_comm, Nat.add_assoc, Nat.add_left_comm] using this

theorem readBytes_eq (f : Nat → Nat) (b w : Nat) (l : List Nat) (hw : l.length = w)
    (h : ∀ j, j < w → f (b + j) = l.getD j 0) : readBytes f b w = l := by
  subst hw
  exact readBytes_eq_of_pointwise l f b h

theorem leRead_eq8 (f : Nat → Nat) (b n : Nat) (hlt : n < 2 ^ 64)
    (h : ∀ j, j < 8 → f (b + j) = (leBytes 8 n).getD j 0) : leRead f b 8 = n := by
  unfold leRead
  rw [readBytes_eq f b 8 (leBytes 8 n) (leBytes_length 8 n)
    (fun j hj => h j hj)]
  exact leVal_leBytes8 n hlt

theorem leRead_eq4 (f : Nat → Nat) (b n : Nat) (hlt : n < 2 ^ 32)
    (h : ∀ j, j < 4 → f (b + j) = (leBytes 4 n).getD j 0) : leRead f b 4 = n := by
  unfold leRead
  rw [readBytes_eq f b 4 (leBytes 4 n) (leBytes_length 4 n)
    (fun j hj => h j hj)]
  exact leVal_leBytes4 n hlt

theorem bytes_append_left (f : Nat → Nat) (b : Nat) (l1 l2 : List Nat)
    (h : ∀ j, j < (l1 ++ l2).length → f (b + j) = (l1 ++ l2).getD j 0) :
    ∀ j, j < l1.length → f (b + j) = l1.getD j 0 := by
  intro j hj
  rw [h j (by simp; omega), List.getD_append _ _ _ _ hj]

theorem bytes_append_right (f : Nat → Nat) (b : Nat) (l1 l2 : List Nat)
    (h : ∀ j, j < (l1 ++ l2).length → f (b + j) = (l1 ++ l2).getD j 0) :
    ∀ j, j < l2.length → f (b + l1.length + j) = l2.getD j 0 := by
  intro j hj
  have hh := h (l1.length + j) (by simp; omega)
  rw [List.getD_append_right _ _ _ _ (by omega)] at hh
  simpa [Nat.add_assoc, Nat.add_sub_cancel_left] using hh

theorem parseLoop_batch (L : List Msg) : ∀ (f : Nat → Nat) (base fuel : Nat),
    (∀ m ∈ L, msgWf m) → L.length ≤ fuel →
    (∀ j, j < (batchBytes L).length → f (base + j) = (batchBytes L).getD j 0) →
    parseLoop f (base + (batchBytes L).length) base fuel =
      (dispatchSpec base L, true) := by
  induction L with
  | nil =>
    intro f base fuel _ _ _
    cases fuel with
    | zero => simp [parseLoop, batchBytes, dispatchSpec]
    | succ k => simp [parseLoop, batchBytes, dispatchSpec]
  | cons m L ih =>
    intro f base fuel hwf hfuel hb
    cases fuel with
    | zero => simp at hfuel
    | succ fl =>
      have hbb : batchBytes (m :: L) = encodeMsg m ++ batchBytes L := by
        simp [batchBytes]
      rw [hbb] at hb ⊢
      have henc : encodeMsg m =
          ((leBytes 8 m.fn ++ leBytes 4 m.remote) ++ leBytes 4 m.payload.length) ++
            m.payload := by
        simp [encodeMsg]
      have hwfm := hwf m (List.mem_cons_self m L)
      have hmsg := bytes_append_left f base (encodeMsg m) (batchBytes L) hb
      have htail := bytes_append_right f base (encodeMsg m) (batchBytes L) hb
      rw [henc] at hmsg
      have hhdr := bytes_append_left f base _ m.payload hmsg
      have hpay := bytes_append_right f base _ m.payload hmsg
      have h16 : (((leBytes 8 m.fn ++ leBytes 4 m.remote) ++
          leBytes 4 m.payload.length)).length = 16 := by
        simp [leBytes_length]
      rw [h16] at hpay
      have h84 := bytes_append_left f base (leBytes 8 m.fn ++ leBytes 4 m.remote) _ hhdr
      have hd := bytes_append_right f base (leBytes 8 m.fn ++ leBytes 4 m.remote) _ hhdr
      have h12 : (leBytes 8 m.fn ++ leBytes 4 m.remote).length = 12 := by
        simp [leBytes_length]
      rw [h12] at hd
      have hfn := bytes_append_left f base (leBytes 8 m.fn) (leBytes 4 m.remote) h84
      have hrem := bytes_append_right f base (leBytes 8 m.fn) (leBytes 4 m.remote) h84
      have h8 : (leBytes 8 m.fn).length = 8 := leBytes_length 8 m.fn
      rw [h8] at hrem
      have hfneq : leRead f base 8 = m.fn :=
        leRead_eq8 f base m.fn hwfm.1 (fun j hj => hfn j (by rw [h8]; omega))
      have hremeq : leRead f (base + 8) 4 = m.remote :=
        leRead_eq4 f (base + 8) m.remote hwfm.2.1
          (fun j hj => hrem j (by rw [leBytes_length]; omega))
      have hdszeq : leRead f (base + 12) 4 = m.payload.length :=
        leRead_eq4 f (base + 12) m.payload.length hwfm.2.2
          (fun j hj => hd j (by rw [leBytes_length]; omega))
      have hpayeq : readBytes f (base + 16) m.payload.length = m.payload :=
        readBytes_eq f (base + 16) m.payload.length m.payload rfl
          (fun j hj => hpay j hj)
      have hblen : (encodeMsg m ++ batchBytes L).length =
          (16 + m.payload.length) + (batchBytes L).length := by
        rw [List.length_append, encodeMsg_length]
        simp [msgSize, headerSize]
      have htp : ((base : Int)) + ((encodeMsg m ++ batchBytes L).length : Int) =
          (((base + 16 + m.payload.length : Nat) : Int)) +
            (((batchBytes L).length : Nat) : Int) := by
        rw [hblen]; push_cast; ring
      rw [htp]
      have htail2 : ∀ j, j < (batchBytes L).length →
          f (base + 16 + m.payload.length + j) = (batchBytes L).getD j 0 := by
        intro j hj
        have hlen : (encodeMsg m).length = 16 + m.payload.length := by
          rw [encodeMsg_length]; simp [msgSize, headerSize]
        have := htail j hj
        rw [hlen] at this
        rw [show base + 16 + m.payload.length + j =
          base + (16 + m.payload.length) + j by omega]
        exact this
      have hrec := ih f (base + 16 + m.payload.length) fl
        (fun x hx => hwf x (List.mem_cons_of_mem m hx))
        (by simp at hfuel; omega) htail2
      have hlt : ((base : Nat) : Int) <
          (((base + 16 + m.payload.length : Nat) : Int)) +
            (((batchBytes L).length : Nat) : Int) := by
        push_cast
        omega
      simp only [parseLoop]
      rw [if_pos hlt, hfneq, hremeq, hdszeq, hpayeq, hrec]
      simp only [dispatchSpec, msgSize, headerSize, Prod.mk.injEq]
      constructor
      · rw [show base + (16 + m.payload.length) = base + 16 + m.payload.length by omega]
      · rw [Bool.and_eq_true]
        refine ⟨?_, rfl⟩
        rw [decide_eq_true_eq]
        push_cast
        omega

theorem dispatchSpec_length (L : List Msg) :
    ∀ base, (dispatchSpec base L).length = L.length := by
  induction L with
  | nil => intro base; rfl
  | cons m L ih => intro base; simp [dispatchSpec, ih]

theorem dispatchSpec_fields (L : List Msg) : ∀ base k, k < L.length →
    (dispatchSpec base L)[k]?.map (fun r => (r.fn, r.payload)) =
      L[k]?.map (fun m2 => (m2.fn, m2.payload)) := by
  induction L with
  | nil => intro base k h; simp at h
  | cons m L ih =>
    intro base k h
    cases k with
    | zero => simp [dispatchSpec]
    | succ k2 =>
      simpa [dispatchSpec] using ih (base + msgSize m) k2 (by simpa using h)

theorem dispatchSpec_chain (L : List Msg) : ∀ base,
    List.Chain' (fun a b => a.start < b.start) (dispatchSpec base L) := by
  induction L with
  | nil => intro base; simp [dispatchSpec]
  | cons m L ih =>
    intro base
    cases L with
    | nil => simp [dispatchSpec]
    | cons m2 L2 =>
      simp only [dispatchSpec]
      refine List.Chain'.cons ?_ ?_
      · simp [msgSize, headerSize]
      · simpa [dispatchSpec] using ih (base + msgSize m)

/-- C5: on a drained batch whose bytes are the concatenated wire encodings of
messages `L`, the dispatch walk of `amsg_sopnop_process_internal` parses, in
one pass from position 0 up to `tail_now`, a fixed-size header then exactly
`header.data_size` payload bytes per message, invokes each message's handler
exactly once (one parse record per message, with matching fn and payload, in
list order), visits strictly increasing reservation offsets, and every
`DART_ASSERT(pos <= tailpos)` along the walk holds. -/
theorem dispatch_in_offset_order (L : List Msg) (f : Nat → Nat) (fuel : Nat)
    (hwf : ∀ m ∈ L, msgWf m) (hfuel : L.length ≤ fuel)
    (hb : ∀ j, j < (batchBytes L).length → f j = (batchBytes L).getD j 0) :
    parseLoop f ((batchBytes L).length) 0 fuel = (dispatchSpec 0 L, true) ∧
    List.Chain' (fun a b => a.start < b.start) (dispatchSpec 0 L) ∧
    (dispatchSpec 0 L).length = L.length ∧
    (∀ k, k < L.length →
      (dispatchSpec 0 L)[k]?.map (fun r => (r.fn, r.payload)) =
        L[k]?.map (fun m2 => (m2.fn, m2.payload))) := by
  refine ⟨?_, dispatchSpec_chain L 0, dispatchSpec_length L 0,
    fun k hk => dispatchSpec_fields L 0 k hk⟩
  have := parseLoop_batch L f 0 fuel hwf hfuel (fun j hj => by simpa using hb j hj)
  simpa using this

/-- Witness for `dispatch_in_offset_order` at a concrete two-message batch. -/
theorem dispatch_in_offset_order_witness :
    (∀ m ∈ c5L, msgWf m) ∧ c5L.length ≤ 2 ∧
    parseLoop c5f ((batchBytes c5L).length) 0 2 = (dispatchSpec 0 c5L, true) :=
  ⟨by decide, by decide,
   (dispatch_in_offset_order c5L c5f 2 (by decide) (by decide)
      (fun j hj => rfl)).1⟩
